import Mathlib

/-!
Shallow embedding of the salermoon lowest-price search pipeline.

The definitions below are translated from the TypeScript sources:
* `src/utils/text.ts` — text helpers (`stripHtmlTags`, `containsAnyKeyword`,
  `safeParseInt`),
* `src/config/naver.ts` — fixed configuration tables,
* `src/domain/filtering.ts` — the Filter Engine (`matchesPriceFilter`,
  `matchesFilters`, `deduplicateByLink`, `sortByPriceAsc`,
  `applyFiltersAndProcess`, `countExcludedByKeywords`, `filterAndSortItems`,
  `groupByPrice`, `calculatePriceBand`, `extractTopResults`),
* `src/lib/naverShopClient.ts` — the Catalog Client (`fetchSinglePage`,
  `calculateStartValues`, `fetchAllPages`), with the network modelled as an
  oracle,
* `src/services/getLowestPrice.ts` — the Relaxation Controller
  (`getLowestPrice`),
* the client-side IQR outlier trim (`filterOutliers`).

JavaScript numbers that hold integral values (prices, totals) are modelled as
`Int`; array lengths and page counts as `Nat`.  Nullable values are `Option`.
-/

namespace Salermoon

/-! ## Text utilities (src/utils/text.ts) -/

/-- Model of the single left-to-right pass of the JS regex replace
`html.replace(/<[^>]*>/g, "")`.  The first argument is `none` while scanning
outside a candidate tag; `some buf` holds (reversed) the characters consumed
since an opening angle bracket.  A candidate that reaches the end of input
without a closing angle bracket is not a match and is emitted verbatim,
exactly as the regex leaves it in place. -/
def removeTagsAux : Option (List Char) → List Char → List Char
  | none, [] => []
  | none, c :: rest =>
    if c = '<' then removeTagsAux (some [c]) rest else c :: removeTagsAux none rest
  | some buf, [] => buf.reverse
  | some buf, c :: rest =>
    if c = '>' then removeTagsAux none rest else removeTagsAux (some (c :: buf)) rest

/-- Model of `String.prototype.trim`: drop whitespace from both ends. -/
def trimChars (cs : List Char) : List Char :=
  ((cs.dropWhile Char.isWhitespace).reverse.dropWhile Char.isWhitespace).reverse

/-- `stripHtmlTags(html)`: remove every `<...>` segment, then trim. -/
def stripHtmlTags (html : String) : String :=
  String.mk (trimChars (removeTagsAux none html.data))

/-- Model of JS `hay.includes(needle)` on character lists: the needle occurs
as a contiguous run somewhere in the haystack. -/
def containsSub (needle : List Char) : List Char → Bool
  | [] => needle.isEmpty
  | c :: rest => needle.isPrefixOf (c :: rest) || containsSub needle rest

/-- Model of `String.prototype.toLowerCase` on character lists. -/
def toLowerChars (cs : List Char) : List Char :=
  cs.map Char.toLower

/-- `containsAnyKeyword(text, keywords)`: case-insensitive substring test
against each keyword (`lowerText.includes(keyword.toLowerCase())`). -/
def containsAnyKeyword (text : String) (keywords : List String) : Bool :=
  keywords.any fun keyword => containsSub (toLowerChars keyword.data) (toLowerChars text.data)

/-- Model of JS `parseInt(value, 10)`: skip leading whitespace, optional sign,
then the longest decimal-digit prefix; `none` when no digit is found
(the `NaN` case). -/
def jsParseInt (s : String) : Option Int :=
  let cs := s.data.dropWhile Char.isWhitespace
  let signAndRest : Int × List Char :=
    match cs with
    | '-' :: t => (-1, t)
    | '+' :: t => (1, t)
    | t => (1, t)
  let digits := (signAndRest.2).takeWhile Char.isDigit
  if digits.isEmpty then none
  else some (signAndRest.1 * digits.foldl (fun acc c => 10 * acc + ((c.toNat : Int) - 48)) 0)

/-- `safeParseInt(value, defaultValue)`: `parseInt` with a fallback on `NaN`. -/
def safeParseInt (value : String) (defaultValue : Int := 0) : Int :=
  (jsParseInt value).getD defaultValue

/-! ## Configuration (src/config/naver.ts) -/

/-- Exclusion category vocabulary (`EXCLUDE_OPTIONS`). -/
inductive ExcludeOption where
  | used
  | rental
  | cbshop
deriving DecidableEq, BEq, Repr

/-- Category to keyword lookup table (`EXCLUDE_KEYWORDS`). -/
def EXCLUDE_KEYWORDS : ExcludeOption → List String
  | .used => ["중고", "리퍼", "리퍼비시", "반품", "전시", "리뉴얼", "테스트", "오픈박스", "매입"]
  | .rental => ["렌탈", "대여", "임대", "렌트", "대차", "리스"]
  | .cbshop => ["해외직구", "직구", "구매대행", "병행수입", "해외배송", "역직구"]

/-- Noise keyword list (`TEXT_FILTER_CONFIG.NOISE_KEYWORDS`). -/
def NOISE_KEYWORDS : List String := ["견적", "상담권"]

/-- `RESULT_CONFIG.TOP_N`. -/
def TOP_N : Nat := 10

/-- `RESULT_CONFIG.MAX_ITEMS_PER_GROUP`. -/
def MAX_ITEMS_PER_GROUP : Nat := 20

/-- `NAVER_API_CONFIG.DISPLAY_PER_PAGE`. -/
def DISPLAY_PER_PAGE : Nat := 100

/-- `PAGINATION_CONFIG.MAX_PAGES`. -/
def MAX_PAGES : Nat := 10

/-- `PAGINATION_CONFIG.MAX_START_VALUE`. -/
def MAX_START_VALUE : Nat := 1000

/-! ## Data model (src/types/naver.ts) -/

/-- Raw catalog record as delivered by the upstream API (all fields text). -/
structure NaverShopRawItem where
  title : String
  link : String
  image : String
  lprice : String
  hprice : String
  mallName : String
  productId : String
  productType : String
  brand : String
  maker : String
  category1 : String
  category2 : String
  category3 : String
  category4 : String
deriving DecidableEq, Repr

/-- Normalized internal item. -/
structure Item where
  title : String
  titleText : String
  lprice : Int
  hprice : Int
  mallName : String
  link : String
  image : Option String
  productId : String
  productType : String
  brand : Option String
  maker : Option String
  category1 : Option String
  category2 : Option String
  category3 : Option String
  category4 : Option String
deriving DecidableEq, Repr

instance : Inhabited Item :=
  ⟨{ title := "", titleText := "", lprice := 0, hprice := 0, mallName := "", link := "",
     image := none, productId := "", productType := "", brand := none, maker := none,
     category1 := none, category2 := none, category3 := none, category4 := none }⟩

/-- Upstream sort options (`SORT_OPTIONS`). -/
inductive SortOption where
  | sim
  | date
  | asc
  | dsc
deriving DecidableEq, Repr

/-- Normalized request constraints (`SearchFilters`); `none` means
unconstrained. -/
structure SearchFilters where
  minPrice : Option Int
  maxPrice : Option Int
  sort : SortOption
  exclude : Option (List ExcludeOption)
  pages : Nat
  filterNoise : Bool
deriving DecidableEq, Repr

/-- Relaxation log entries (`RelaxationStep`). -/
inductive RelaxationStep where
  | dropFilterNoise
  | dropExclude
  | reducePages
  | increasePages
deriving DecidableEq, BEq, Repr

/-- Snapshot of the constraint values actually enforced (`AppliedFilters`). -/
structure AppliedFilters where
  minPrice : Option Int
  maxPrice : Option Int
  filterNoise : Bool
  exclude : Option (List ExcludeOption)
  excludeKeywordsEnabled : Bool
  pages : Nat
deriving DecidableEq, Repr

/-- Result of the domain filtering pipeline (`FilteringResult`). -/
structure FilteringResult where
  items : List Item
  filterRelaxed : Bool
  appliedRelaxation : List RelaxationStep
  appliedFilters : AppliedFilters
  excludedByKeywordsCount : Nat
deriving Repr

/-- One exact-price band (`PriceGroup`). -/
structure PriceGroup where
  price : Int
  count : Nat
  items : List Item
  representative : Item
deriving DecidableEq, Repr

/-- Weighted summary over the top price bands (`PriceBandSummary`). -/
structure PriceBandSummary where
  minPrice : Int
  maxPrice : Int
  avgPrice : Int
  medianPrice : Int
deriving DecidableEq, Repr

/-! ## Item normalization (src/domain/filtering.ts, `transformRawItem`) -/

/-- Model of `raw.field || undefined`: the empty string is the only falsy
string, and it maps to `undefined`. -/
def orUndefined (s : String) : Option String :=
  if s = "" then none else some s

/-- `transformRawItem`: raw record to internal `Item`.  Note that
`raw.mallName || ""` and `raw.productId || ""` are the identity on strings. -/
def transformRawItem (raw : NaverShopRawItem) : Item :=
  { title := raw.title
    titleText := stripHtmlTags raw.title
    lprice := safeParseInt raw.lprice 0
    hprice := safeParseInt raw.hprice 0
    mallName := raw.mallName
    link := raw.link
    image := orUndefined raw.image
    productId := raw.productId
    productType := raw.productType
    brand := orUndefined raw.brand
    maker := orUndefined raw.maker
    category1 := orUndefined raw.category1
    category2 := orUndefined raw.category2
    category3 := orUndefined raw.category3
    category4 := orUndefined raw.category4 }

/-! ## Filter Engine (src/domain/filtering.ts) -/

/-- `hasNoiseKeyword(titleText)`. -/
def hasNoiseKeyword (titleText : String) : Bool :=
  containsAnyKeyword titleText NOISE_KEYWORDS

/-- `hasExcludeKeyword(titleText, excludeOptions)`: the early-returning loop
over the selected categories. -/
def hasExcludeKeyword (titleText : String) (excludeOptions : List ExcludeOption) : Bool :=
  excludeOptions.any fun option => containsAnyKeyword titleText (EXCLUDE_KEYWORDS option)

/-- `minPrice !== null && item.lprice < minPrice`. -/
def belowMin (lprice : Int) : Option Int → Bool
  | some m => decide (lprice < m)
  | none => false

/-- `maxPrice !== null && item.lprice > maxPrice`. -/
def aboveMax (lprice : Int) : Option Int → Bool
  | some m => decide (m < lprice)
  | none => false

/-- `matchesPriceFilter(item, minPrice, maxPrice)`: a non-positive `lprice`
means "no price information" and is rejected before the bound checks. -/
def matchesPriceFilter (item : Item) (minPrice maxPrice : Option Int) : Bool :=
  if item.lprice ≤ 0 then false
  else if belowMin item.lprice minPrice then false
  else if aboveMax item.lprice maxPrice then false
  else true

/-- `excludeOptions !== null && excludeOptions.length > 0`. -/
def excludeActive : Option (List ExcludeOption) → Bool
  | none => false
  | some opts => decide (0 < opts.length)

/-- `matchesFilters`: price bounds, then exclusion keywords (only when the
exclusion set is non-null and non-empty), then the optional noise filter. -/
def matchesFilters (item : Item) (minPrice maxPrice : Option Int)
    (excludeOptions : Option (List ExcludeOption)) (filterNoise : Bool) : Bool :=
  if !matchesPriceFilter item minPrice maxPrice then false
  else if excludeActive excludeOptions
      && hasExcludeKeyword item.titleText (excludeOptions.getD []) then false
  else if filterNoise && hasNoiseKeyword item.titleText then false
  else true

/-- Recursive core of `deduplicateByLink`: the `seen` set of links is carried
explicitly. -/
def dedupAux (seen : List String) : List Item → List Item
  | [] => []
  | item :: rest =>
    if seen.contains item.link then dedupAux seen rest
    else item :: dedupAux (item.link :: seen) rest

/-- `deduplicateByLink(items)`: keep the first occurrence of each link. -/
def deduplicateByLink (items : List Item) : List Item :=
  dedupAux [] items

/-- `sortByPriceAsc(items)`: stable ascending sort by `lprice`
(JS `sort((a, b) => a.lprice - b.lprice)` is stable). -/
def sortByPriceAsc (items : List Item) : List Item :=
  items.mergeSort fun a b => decide (a.lprice ≤ b.lprice)

/-- `applyFiltersAndProcess`: filter, deduplicate by link, sort ascending. -/
def applyFiltersAndProcess (items : List Item) (minPrice maxPrice : Option Int)
    (excludeOptions : Option (List ExcludeOption)) (filterNoise : Bool) : List Item :=
  sortByPriceAsc (deduplicateByLink
    (items.filter fun item => matchesFilters item minPrice maxPrice excludeOptions filterNoise))

/-- `countExcludedByKeywords`: among items passing the price filter, count
those hit by a configured exclusion keyword; `0` when no exclusion is
configured. -/
def countExcludedByKeywords (items : List Item) (minPrice maxPrice : Option Int)
    (excludeOptions : Option (List ExcludeOption)) : Nat :=
  match excludeOptions with
  | none => 0
  | some opts =>
    if opts.length = 0 then 0
    else
      (items.filter fun item =>
        matchesPriceFilter item minPrice maxPrice && hasExcludeKeyword item.titleText opts).length

/-- `filterAndSortItems`: the main domain pipeline.  The only in-domain
relaxation step forces `filterNoise := false` when the initial pass returns
zero items and the noise filter was on. -/
def filterAndSortItems (rawItems : List NaverShopRawItem) (filters : SearchFilters) :
    FilteringResult :=
  let items := rawItems.map transformRawItem
  let minPrice := filters.minPrice
  let maxPrice := filters.maxPrice
  let excludeOptions := filters.exclude
  let result0 := applyFiltersAndProcess items minPrice maxPrice excludeOptions filters.filterNoise
  let relaxed : Bool := decide (result0.length = 0) && filters.filterNoise
  let currentFilterNoise : Bool := if relaxed then false else filters.filterNoise
  let appliedRelaxation : List RelaxationStep :=
    if relaxed then [RelaxationStep.dropFilterNoise] else []
  let result :=
    if relaxed then applyFiltersAndProcess items minPrice maxPrice excludeOptions false
    else result0
  let excludedByKeywordsCount := countExcludedByKeywords items minPrice maxPrice excludeOptions
  { items := result
    filterRelaxed := decide (0 < appliedRelaxation.length)
    appliedRelaxation := appliedRelaxation
    appliedFilters :=
      { minPrice := minPrice
        maxPrice := maxPrice
        filterNoise := currentFilterNoise
        exclude := excludeOptions
        excludeKeywordsEnabled := excludeActive excludeOptions
        pages := filters.pages }
    excludedByKeywordsCount := excludedByKeywordsCount }

/-! ## Aggregator (src/domain/filtering.ts, `groupByPrice` and friends) -/

/-- One step of the grouping loop body of `groupByPrice`: look the price up in
the insertion-ordered map, and push the item unless the per-group cap is
reached. -/
def insertItemIntoGroups : List (Int × List Item) → Item → List (Int × List Item)
  | [], item => [(item.lprice, [item])]
  | (price, groupItems) :: rest, item =>
    if price = item.lprice then
      (if groupItems.length < MAX_ITEMS_PER_GROUP then (price, groupItems ++ [item])
       else (price, groupItems)) :: rest
    else (price, groupItems) :: insertItemIntoGroups rest item

/-- `groupByPrice(items, maxGroups)`: bucket by exact price (insertion-ordered
map, per-group cap), sort the entries by ascending price, keep the first
`maxGroups`, and build the `PriceGroup` records (`representative` is
`groupItems[0]`, which always exists for the generated groups). -/
def groupByPrice (items : List Item) (maxGroups : Nat := TOP_N) : List PriceGroup :=
  if items.length = 0 then []
  else
    let groupMap := items.foldl insertItemIntoGroups []
    let sortedEntries := groupMap.mergeSort fun a b => decide (a.1 ≤ b.1)
    (sortedEntries.take maxGroups).map fun e =>
      { price := e.1, count := e.2.length, items := e.2, representative := e.2.headD default }

/-- Model of `Math.round(a / b)` for an exact rational `a / b` with `b > 0`:
round half toward positive infinity. -/
def jsRoundDiv (a b : Int) : Int :=
  Int.fdiv (2 * a + b) (2 * b)

/-- `Math.min(...prices)` over a non-empty list. -/
def listMin : List Int → Int
  | [] => 0
  | h :: t => t.foldl min h

/-- `Math.max(...prices)` over a non-empty list. -/
def listMax : List Int → Int
  | [] => 0
  | h :: t => t.foldl max h

/-- `calculatePriceBand(groups)`: extremes of the group prices, count-weighted
mean, and the median of each group price repeated `count` times.  The
subtraction in `mid - 1` is only reached when `allPrices` has even, hence at
least two when non-empty, length, matching the in-range JS index. -/
def calculatePriceBand (groups : List PriceGroup) : Option PriceBandSummary :=
  if groups.length = 0 then none
  else
    let prices := groups.map (·.price)
    let minPrice := listMin prices
    let maxPrice := listMax prices
    let totalItems : Nat := groups.foldl (fun sum g => sum + g.count) 0
    let weightedSum : Int := groups.foldl (fun sum g => sum + g.price * (g.count : Int)) 0
    let avgPrice := jsRoundDiv weightedSum (totalItems : Int)
    let allPrices : List Int :=
      (groups.foldl (fun acc g => acc ++ List.replicate g.count g.price) []).mergeSort
        fun a b => decide (a ≤ b)
    let mid := allPrices.length / 2
    let medianPrice :=
      if allPrices.length % 2 = 0 then
        jsRoundDiv (allPrices.getD (mid - 1) 0 + allPrices.getD mid 0) 2
      else allPrices.getD mid 0
    some { minPrice := minPrice, maxPrice := maxPrice, avgPrice := avgPrice,
           medianPrice := medianPrice }

/-- `extractTopResults(items)`: cheapest item, top-N price bands, and their
summary. -/
def extractTopResults (items : List Item) :
    Option Item × List PriceGroup × Option PriceBandSummary :=
  let top10Groups := groupByPrice items TOP_N
  (items.head?, top10Groups, calculatePriceBand top10Groups)

/-! ## Catalog Client (src/lib/naverShopClient.ts)

The network is modelled as an oracle.  A single HTTP attempt either hits the
abort-controller timeout or yields a response carrying a status, a
`response.ok` flag, the body text, and — when the body is valid JSON — the
parsed body.  The parsed body is modelled by the fields the code reads:
`data.items`, `data.total`, and whether `NaverShopApiResponseSchema.safeParse`
succeeds on it (for a schema-valid body the two field reads coincide with the
zod defaults `[]` and `0`). -/

/-- Parsed JSON body of one upstream response, as read by the code. -/
structure RawBody where
  itemsField : Option (List NaverShopRawItem)
  totalField : Option Int
  schemaValid : Bool

/-- Outcome of one HTTP attempt against the upstream endpoint. -/
inductive NetResult where
  | timeout
  | response (status : Nat) (statusText : String) (ok : Bool) (bodyText : String)
      (jsonBody : Option RawBody)

/-- Error taxonomy of the client (src/utils/errors.ts): `TimeoutError`,
`NaverApiError` carrying the upstream status/body, and the generic
`NaverApiError` wrapper for any other failure (for example a body that is not
JSON). -/
inductive ApiFailure where
  | timeoutError
  | upstreamError (status : Nat) (statusText : String) (body : String)
  | genericError
deriving DecidableEq, Repr

/-- Items-plus-total result of a page fetch. -/
structure FetchedPage where
  items : List NaverShopRawItem
  total : Int
deriving DecidableEq, Repr

/-- `fetchSinglePage`: timeout aborts with `TimeoutError`; a non-ok status
fails with `NaverApiError` carrying status, statusText and body; a non-JSON
body fails with the generic `NaverApiError`; a JSON body that fails schema
validation degrades to the best-effort read `{ items: data.items ?? [],
total: data.total ?? 0 }`, and a schema-valid body yields the validated
(identically defaulted) fields. -/
def fetchSinglePage (net : NetResult) : Except ApiFailure FetchedPage :=
  match net with
  | .timeout => .error .timeoutError
  | .response status statusText ok bodyText jsonBody =>
    if !ok then .error (.upstreamError status statusText bodyText)
    else
      match jsonBody with
      | none => .error .genericError
      | some data =>
        if data.schemaValid then .ok { items := data.itemsField.getD [], total := data.totalField.getD 0 }
        else .ok { items := data.itemsField.getD [], total := data.totalField.getD 0 }

/-- `calculateStartValues(pages)`: offsets `1, 101, 201, ...` for
`min(pages, MAX_PAGES)` pages, stopping at the first offset above
`MAX_START_VALUE` (the loop `break` is the first failure of the predicate). -/
def calculateStartValues (pages : Nat) : List Nat :=
  (((List.range (min pages MAX_PAGES)).map fun i => 1 + i * DISPLAY_PER_PAGE).takeWhile
    fun start => decide (start ≤ MAX_START_VALUE))

/-- Sequential page loop of `fetchAllPages`: accumulates items and overwrites
the running total with each page's reported total; the first failing page
aborts the whole fetch. -/
def fetchPagesLoop (net : Nat → NetResult) :
    List Nat → List NaverShopRawItem → Int → Except ApiFailure FetchedPage
  | [], allItems, totalFromApi => .ok { items := allItems, total := totalFromApi }
  | start :: rest, allItems, _totalFromApi =>
    match fetchSinglePage (net start) with
    | .error e => .error e
    | .ok page => fetchPagesLoop net rest (allItems ++ page.items) page.total

/-- `fetchAllPages(query, pages, sort, exclude)`: walk the start offsets
sequentially.  The query, sort and exclude parameters only shape the URL, so
the model keys the oracle by start offset. -/
def fetchAllPages (net : Nat → NetResult) (pages : Nat) : Except ApiFailure FetchedPage :=
  fetchPagesLoop net (calculateStartValues pages) [] 0

/-! ## Relaxation Controller (src/services/getLowestPrice.ts)

`getLowestPrice` drives `fetchAllPages` and `filterAndSortItems` through up to
two service-level relaxation rounds.  Upstream fetches are modelled by an
oracle `fetchAll : pages → exclude-parameter → FetchedPage` giving the result
of a successful `fetchAllPages` call (an upstream failure is an exception that
aborts the whole service call, so only completed searches are modelled).  The
three calls the service can make always carry pairwise distinct arguments, so
a deterministic oracle loses no generality. -/

/-- Final response shape assembled by `getLowestPrice`. -/
structure LowestPriceResponse where
  query : String
  filters : SearchFilters
  top1 : Option Item
  top10Groups : List PriceGroup
  priceBand : Option PriceBandSummary
  totalCandidates : Nat
  totalFromApi : Int
  filterRelaxed : Bool
  appliedRelaxation : List RelaxationStep
  appliedFilters : AppliedFilters
  excludedByKeywordsCount : Nat

/-- Mutable state of the service body: the possibly relaxed exclude set and
page count, the latest fetch, the latest filtering result, and the
service-level relaxation log. -/
structure RelaxState where
  currentExclude : Option (List ExcludeOption)
  currentPages : Nat
  rawItems : List NaverShopRawItem
  totalFromApi : Int
  filterResult : FilteringResult
  log : List RelaxationStep

/-- Steps 1 and 2 of `getLowestPrice`: initial fetch (with
`currentExclude ?? []`) and initial filtering with the original filters. -/
def relaxInit (fetchAll : Nat → List ExcludeOption → FetchedPage)
    (filters : SearchFilters) : RelaxState :=
  let fetched := fetchAll filters.pages (filters.exclude.getD [])
  let fr := filterAndSortItems fetched.items
    { filters with exclude := filters.exclude, pages := filters.pages }
  { currentExclude := filters.exclude, currentPages := filters.pages,
    rawItems := fetched.items, totalFromApi := fetched.total, filterResult := fr, log := [] }

/-- Relaxation step 2 of `getLowestPrice` (`dropExclude`): on zero items with
a non-null non-empty exclude set, null the exclude set, re-fetch without the
exclude parameter, and re-filter keeping the previously relaxed
`filterNoise`. -/
def relaxDropExclude (fetchAll : Nat → List ExcludeOption → FetchedPage)
    (filters : SearchFilters) (s : RelaxState) : RelaxState :=
  if s.filterResult.items.length = 0 ∧ excludeActive s.currentExclude then
    let fetched := fetchAll s.currentPages []
    let fr := filterAndSortItems fetched.items
      { filters with
        filterNoise := s.filterResult.appliedFilters.filterNoise
        exclude := none
        pages := s.currentPages }
    { currentExclude := none, currentPages := s.currentPages,
      rawItems := fetched.items, totalFromApi := fetched.total, filterResult := fr,
      log := s.log ++ [RelaxationStep.dropExclude] }
  else s

/-- Relaxation step 3 of `getLowestPrice` (`reducePages`): on zero items with
more than one page, reduce to a single page, re-fetch (with
`currentExclude ?? []`), and re-filter with `filterNoise := false`. -/
def relaxReducePages (fetchAll : Nat → List ExcludeOption → FetchedPage)
    (filters : SearchFilters) (s : RelaxState) : RelaxState :=
  if s.filterResult.items.length = 0 ∧ 1 < s.currentPages then
    let fetched := fetchAll 1 (s.currentExclude.getD [])
    let fr := filterAndSortItems fetched.items
      { filters with
        filterNoise := false
        exclude := s.currentExclude
        pages := 1 }
    { currentExclude := s.currentExclude, currentPages := 1,
      rawItems := fetched.items, totalFromApi := fetched.total, filterResult := fr,
      log := s.log ++ [RelaxationStep.reducePages] }
  else s

/-- `getLowestPrice(query, filters)`: run the base round and the two
service-level relaxation rounds, merge the relaxation logs (the terminal
domain result's log first, then the service log), and assemble the response;
the price bounds of `appliedFilters` are taken verbatim from the input
filters. -/
def getLowestPrice (fetchAll : Nat → List ExcludeOption → FetchedPage)
    (query : String) (filters : SearchFilters) : LowestPriceResponse :=
  let s := relaxReducePages fetchAll filters
    (relaxDropExclude fetchAll filters (relaxInit fetchAll filters))
  let allRelaxation := s.filterResult.appliedRelaxation ++ s.log
  let finalAppliedFilters : AppliedFilters :=
    { minPrice := filters.minPrice
      maxPrice := filters.maxPrice
      filterNoise := s.filterResult.appliedFilters.filterNoise
      exclude := s.currentExclude
      excludeKeywordsEnabled := s.filterResult.appliedFilters.excludeKeywordsEnabled
      pages := s.currentPages }
  let top := extractTopResults s.filterResult.items
  { query := query, filters := filters, top1 := top.1, top10Groups := top.2.1,
    priceBand := top.2.2, totalCandidates := s.filterResult.items.length,
    totalFromApi := s.totalFromApi,
    filterRelaxed := decide (0 < allRelaxation.length),
    appliedRelaxation := allRelaxation,
    appliedFilters := finalAppliedFilters,
    excludedByKeywordsCount := s.filterResult.excludedByKeywordsCount }

/-! ## Client-side refiner (IQR outlier trim) -/

/-- `filterOutliers(items)`: with fewer than 5 items the input is returned
unchanged; otherwise trim prices outside
`[max(0, q1 - 2*iqr), q3 + 2*iqr]` where `q1`/`q3` are the index-based
quartiles of the ascending price list (`Math.floor(n * 0.25)` and
`Math.floor(n * 0.75)` are exact, hence `n / 4` and `n * 3 / 4`). -/
def filterOutliers (items : List Item) : List Item :=
  if items.length < 5 then items
  else
    let prices := (items.map (·.lprice)).mergeSort fun a b => decide (a ≤ b)
    let n := prices.length
    let q1 := prices.getD (n / 4) 0
    let q3 := prices.getD (n * 3 / 4) 0
    let iqr := q3 - q1
    let lowerBound := max 0 (q1 - 2 * iqr)
    let upperBound := q3 + 2 * iqr
    items.filter fun item => decide (lowerBound ≤ item.lprice) && decide (item.lprice ≤ upperBound)

/-! ## Helper lemmas -/

attribute [local semireducible] List.merge List.mergeSort

/-- Every element surviving deduplication was in the input. -/
theorem mem_dedupAux {x : Item} : ∀ {l : List Item} {seen : List String},
    x ∈ dedupAux seen l → x ∈ l := by
  intro l
  induction l with
  | nil => intro seen h; simp [dedupAux] at h
  | cons a t ih =>
    intro seen h
    simp only [dedupAux] at h
    split at h
    · exact List.mem_cons_of_mem _ (ih h)
    · rcases List.mem_cons.mp h with h' | h'
      · exact h' ▸ List.mem_cons_self _ _
      · exact List.mem_cons_of_mem _ (ih h')

/-- An item passing the full filter chain passes the price filter. -/
theorem matchesFilters_price {item : Item} {mn mx : Option Int}
    {ex : Option (List ExcludeOption)} {fn : Bool}
    (h : matchesFilters item mn mx ex fn = true) : matchesPriceFilter item mn mx = true := by
  cases hp : matchesPriceFilter item mn mx with
  | true => rfl
  | false => simp [matchesFilters, hp] at h

/-- An item passing the price filter has a positive price. -/
theorem matchesPriceFilter_pos {item : Item} {mn mx : Option Int}
    (h : matchesPriceFilter item mn mx = true) : 0 < item.lprice := by
  by_cases h0 : item.lprice ≤ 0
  · simp [matchesPriceFilter, h0] at h
  · omega

/-- Membership in the output of the Filter Engine pass implies membership in
the input together with a passed filter chain. -/
theorem mem_applyFiltersAndProcess {x : Item} {items : List Item} {mn mx : Option Int}
    {ex : Option (List ExcludeOption)} {fn : Bool}
    (h : x ∈ applyFiltersAndProcess items mn mx ex fn) :
    x ∈ items ∧ matchesFilters x mn mx ex fn = true := by
  simp only [applyFiltersAndProcess, sortByPriceAsc, List.mem_mergeSort] at h
  have h2 := mem_dedupAux h
  exact ⟨(List.mem_filter.mp h2).1, (List.mem_filter.mp h2).2⟩

/-! ## C3 — non-positive prices are always excluded -/

/-- C3: an item with `lprice <= 0` fails the price-bound check for every
combination of `minPrice` and `maxPrice`, and consequently no such item ever
appears in a filtered result of the Filter Engine. -/
theorem nonpos_lprice_always_excluded :
    (∀ (item : Item) (minPrice maxPrice : Option Int), item.lprice ≤ 0 →
      matchesPriceFilter item minPrice maxPrice = false)
    ∧ ∀ (items : List Item) (minPrice maxPrice : Option Int)
        (excludeOptions : Option (List ExcludeOption)) (filterNoise : Bool) (item : Item),
        item ∈ applyFiltersAndProcess items minPrice maxPrice excludeOptions filterNoise →
        0 < item.lprice := by
  constructor
  · intro item mn mx h
    simp [matchesPriceFilter, h]
  · intro items mn mx ex fn item h
    exact matchesPriceFilter_pos (matchesFilters_price (mem_applyFiltersAndProcess h).2)

/-- Concrete sample item with a positive price. -/
def sampleItem : Item :=
  { title := "상품 A", titleText := "상품 A", lprice := 1000, hprice := 0, mallName := "몰",
    link := "https://example.com/a", image := none, productId := "1", productType := "1",
    brand := none, maker := none, category1 := none, category2 := none, category3 := none,
    category4 := none }

/-- Concrete sample item with price zero (price information missing). -/
def zeroPriceItem : Item :=
  { sampleItem with lprice := 0, link := "https://example.com/zero" }

/-- Witness for C3 at concrete inputs. -/
theorem nonpos_lprice_always_excluded_witness :
    matchesPriceFilter zeroPriceItem (some 1) (some 100000) = false ∧ 0 < sampleItem.lprice :=
  ⟨nonpos_lprice_always_excluded.1 zeroPriceItem (some 1) (some 100000) (by decide),
   nonpos_lprice_always_excluded.2 [sampleItem] none none none false sampleItem (by decide)⟩

/-! ## C8 — IQR trim with a small sample is the identity -/

/-- C8: with fewer than the minimum sample size (5) items, the IQR outlier
trim returns its input unchanged. -/
theorem filterOutliers_small_sample_id :
    ∀ (items : List Item), items.length < 5 → filterOutliers items = items := by
  intro items h
  simp [filterOutliers, h]

/-- Witness for C8 at a concrete two-item list. -/
theorem filterOutliers_small_sample_id_witness :
    [sampleItem, zeroPriceItem].length < 5
    ∧ filterOutliers [sampleItem, zeroPriceItem] = [sampleItem, zeroPriceItem] :=
  ⟨by decide, filterOutliers_small_sample_id [sampleItem, zeroPriceItem] (by decide)⟩

/-! ## C4 — the exclusion diagnostic counter -/

/-- Counterexample to C4: the diagnostic counter is not independent of the
configured exclusion set — for an item whose title carries a "used" keyword it
is 1 when `used` is configured but 0 when the set is null. -/
theorem countExcludedByKeywords_depends_on_config :
    ¬ (countExcludedByKeywords
        [{ sampleItem with titleText := "중고 상품" }] none none (some [ExcludeOption.used])
      = countExcludedByKeywords [{ sampleItem with titleText := "중고 상품" }] none none none) := by
  decide

/-- C4 (amended): the diagnostic counter equals the number of items that pass
the price-bound check and contain a keyword of one of the *configured*
exclusion categories; in particular it is 0 whenever the exclusion set is null
or empty, so it does depend on the configured set. -/
theorem countExcludedByKeywords_counts_configured :
    ∀ (items : List Item) (minPrice maxPrice : Option Int)
      (excludeOptions : Option (List ExcludeOption)),
      countExcludedByKeywords items minPrice maxPrice excludeOptions
        = (items.filter fun item =>
            matchesPriceFilter item minPrice maxPrice
            && hasExcludeKeyword item.titleText (excludeOptions.getD [])).length := by
  intro items mn mx ex
  match ex with
  | none => simp [countExcludedByKeywords, hasExcludeKeyword]
  | some opts =>
    match opts with
    | [] => simp [countExcludedByKeywords, hasExcludeKeyword]
    | o :: rest => simp [countExcludedByKeywords]

/-! ## C7 — single-page fetch error handling -/

/-- C7: a timed-out call fails with the timeout error; a non-success HTTP
status fails with the upstream error carrying status and body; a JSON body
that fails schema validation still succeeds with the best-effort read, items
defaulting to the empty list and total to zero when missing. -/
theorem fetchSinglePage_error_taxonomy :
    (fetchSinglePage NetResult.timeout = .error ApiFailure.timeoutError)
    ∧ (∀ (status : Nat) (statusText bodyText : String) (jsonBody : Option RawBody),
        fetchSinglePage (.response status statusText false bodyText jsonBody)
          = .error (.upstreamError status statusText bodyText))
    ∧ ∀ (status : Nat) (statusText bodyText : String) (data : RawBody),
        data.schemaValid = false →
        fetchSinglePage (.response status statusText true bodyText (some data))
          = .ok { items := data.itemsField.getD [], total := data.totalField.getD 0 } := by
  refine ⟨rfl, fun _ _ _ _ => rfl, fun _ _ _ data h => ?_⟩
  simp [fetchSinglePage, h]

/-- Witness for C7: a schema-invalid body with both fields missing yields the
empty item list and total zero. -/
theorem fetchSinglePage_error_taxonomy_witness :
    ({ itemsField := none, totalField := none, schemaValid := false : RawBody }.schemaValid
        = false)
    ∧ fetchSinglePage (.response 200 "OK" true "{}"
        (some { itemsField := none, totalField := none, schemaValid := false }))
      = .ok { items := [], total := 0 } :=
  ⟨rfl, fetchSinglePage_error_taxonomy.2.2 200 "OK" "{}"
    { itemsField := none, totalField := none, schemaValid := false } rfl⟩

/-! ## C5 — the filter-dedup-sort pass is idempotent in item count -/

/-- Deduplication never keeps an item whose link was already seen, and the
kept links are pairwise distinct. -/
theorem dedupAux_spec : ∀ (l : List Item) (seen : List String),
    (∀ y ∈ dedupAux seen l, y.link ∉ seen)
    ∧ ((dedupAux seen l).map (fun i => i.link)).Nodup := by
  intro l
  induction l with
  | nil => intro seen; simp [dedupAux]
  | cons a t ih =>
    intro seen
    by_cases h : a.link ∈ seen
    · have hd : dedupAux seen (a :: t) = dedupAux seen t := by
        simp [dedupAux, h]
      rw [hd]
      exact ih seen
    · have hd : dedupAux seen (a :: t) = a :: dedupAux (a.link :: seen) t := by
        simp [dedupAux, h]
      rw [hd]
      have iht := ih (a.link :: seen)
      constructor
      · intro y hy
        rcases List.mem_cons.mp hy with hy | hy
        · exact hy ▸ h
        · have := iht.1 y hy
          intro hmem
          exact this (List.mem_cons_of_mem _ hmem)
      · simp only [List.map_cons, List.nodup_cons]
        refine ⟨?_, iht.2⟩
        intro hmem
        rcases List.mem_map.mp hmem with ⟨y, hy, hlink⟩
        exact iht.1 y hy (hlink ▸ List.mem_cons_self _ _)

/-- Deduplication is the identity on a list whose links are pairwise distinct
and disjoint from the seen set. -/
theorem dedupAux_eq_self : ∀ (l : List Item) (seen : List String),
    (l.map (fun i => i.link)).Nodup → (∀ y ∈ l, y.link ∉ seen) → dedupAux seen l = l := by
  intro l
  induction l with
  | nil => intro seen _ _; rfl
  | cons a t ih =>
    intro seen hnd hdisj
    have ha : a.link ∉ seen := hdisj a (List.mem_cons_self _ _)
    simp only [List.map_cons, List.nodup_cons] at hnd
    have ht : dedupAux (a.link :: seen) t = t := by
      refine ih (a.link :: seen) hnd.2 ?_
      intro y hy
      simp only [List.mem_cons]
      rintro (hlink | hlink)
      · exact hnd.1 (hlink ▸ List.mem_map_of_mem _ hy)
      · exact hdisj y (List.mem_cons_of_mem _ hy) hlink
    simp [dedupAux, ha, ht]

/-- C5: applying filter, link-deduplication and price-ascending sort to its
own output preserves the item count. -/
theorem filterEngine_idempotent_count :
    ∀ (items : List Item) (minPrice maxPrice : Option Int)
      (excludeOptions : Option (List ExcludeOption)) (filterNoise : Bool),
      (applyFiltersAndProcess
          (applyFiltersAndProcess items minPrice maxPrice excludeOptions filterNoise)
          minPrice maxPrice excludeOptions filterNoise).length
        = (applyFiltersAndProcess items minPrice maxPrice excludeOptions filterNoise).length := by
  intro items mn mx ex fn
  set P := applyFiltersAndProcess items mn mx ex fn with hP
  have hfilt : P.filter (fun item => matchesFilters item mn mx ex fn) = P :=
    List.filter_eq_self.mpr fun a ha => (mem_applyFiltersAndProcess ha).2
  have hperm : List.Perm P
      (deduplicateByLink (items.filter fun item => matchesFilters item mn mx ex fn)) := by
    rw [hP]
    simp only [applyFiltersAndProcess, sortByPriceAsc]
    exact List.mergeSort_perm _ _
  have hnodupP : (P.map (fun i => i.link)).Nodup :=
    ((hperm.map _).nodup_iff).mpr (dedupAux_spec _ []).2
  have hded : deduplicateByLink P = P := dedupAux_eq_self P [] hnodupP (by simp)
  show (applyFiltersAndProcess P mn mx ex fn).length = P.length
  simp only [applyFiltersAndProcess, hfilt]
  show (sortByPriceAsc (deduplicateByLink P)).length = P.length
  rw [hded]
  simp [sortByPriceAsc]

/-! ## C1 — price bounds are never relaxed -/

/-- C1: the price bounds reported in `appliedFilters` are the original
normalized values, both for the domain pipeline `filterAndSortItems` and for
the full service `getLowestPrice`, and every relaxation round's filtering
result carries the original bounds unchanged — in particular they are never
nulled when the originals were non-null. -/
theorem price_bounds_never_relaxed :
    ∀ (fetchAll : Nat → List ExcludeOption → FetchedPage) (query : String)
      (filters : SearchFilters),
      ((getLowestPrice fetchAll query filters).appliedFilters.minPrice = filters.minPrice
        ∧ (getLowestPrice fetchAll query filters).appliedFilters.maxPrice = filters.maxPrice)
      ∧ (∀ (rawItems : List NaverShopRawItem) (f : SearchFilters),
          (filterAndSortItems rawItems f).appliedFilters.minPrice = f.minPrice
          ∧ (filterAndSortItems rawItems f).appliedFilters.maxPrice = f.maxPrice)
      ∧ ((relaxInit fetchAll filters).filterResult.appliedFilters.minPrice = filters.minPrice
        ∧ (relaxInit fetchAll filters).filterResult.appliedFilters.maxPrice = filters.maxPrice)
      ∧ ((relaxDropExclude fetchAll filters
            (relaxInit fetchAll filters)).filterResult.appliedFilters.minPrice = filters.minPrice
        ∧ (relaxDropExclude fetchAll filters
            (relaxInit fetchAll filters)).filterResult.appliedFilters.maxPrice = filters.maxPrice)
      ∧ ((relaxReducePages fetchAll filters (relaxDropExclude fetchAll filters
            (relaxInit fetchAll filters))).filterResult.appliedFilters.minPrice = filters.minPrice
        ∧ (relaxReducePages fetchAll filters (relaxDropExclude fetchAll filters
            (relaxInit fetchAll filters))).filterResult.appliedFilters.maxPrice
          = filters.maxPrice) := by
  intro fetchAll query filters
  refine ⟨⟨rfl, rfl⟩, fun rawItems f => ⟨rfl, rfl⟩, ⟨rfl, rfl⟩, ?_, ?_⟩
  · unfold relaxDropExclude
    split <;> exact ⟨rfl, rfl⟩
  · unfold relaxReducePages
    split
    · exact ⟨rfl, rfl⟩
    · unfold relaxDropExclude
      split <;> exact ⟨rfl, rfl⟩

/-! ## C6 — multi-page fetch: concatenation order and last-page total -/

/-- The page loop on an all-successful prefix of offsets returns the
accumulated items followed by each page's items in offset order, and the
running total is overwritten by each page, leaving the last page's value. -/
theorem fetchPagesLoop_ok (net : Nat → NetResult) (page : Nat → FetchedPage) :
    ∀ (starts : List Nat) (acc : List NaverShopRawItem) (t : Int),
      (∀ s ∈ starts, fetchSinglePage (net s) = .ok (page s)) →
      fetchPagesLoop net starts acc t
        = .ok { items := acc ++ (starts.map fun s => (page s).items).flatten
                total := (starts.map fun s => (page s).total).getLastD t } := by
  intro starts
  induction starts with
  | nil => intro acc t h; simp [fetchPagesLoop]
  | cons a rest ih =>
    intro acc t h
    have ha := h a (List.mem_cons_self _ _)
    have hrest : ∀ s ∈ rest, fetchSinglePage (net s) = .ok (page s) :=
      fun s hs => h s (List.mem_cons_of_mem _ hs)
    simp only [fetchPagesLoop, ha]
    rw [ih (acc ++ (page a).items) (page a).total hrest]
    simp only [List.map_cons, List.flatten_cons, List.getLastD_cons, List.append_assoc]

/-- C6: when every page call succeeds, `fetchAllPages` visits the offsets
`1, 101, 201, ...` (bounded by `MAX_PAGES`), returns the page item lists
concatenated in that fetch order, and reports as total the value of the last
page fetched rather than any reconciliation over pages. -/
theorem fetchAllPages_concat_and_last_total :
    ∀ (net : Nat → NetResult) (page : Nat → FetchedPage) (pages : Nat),
      (∀ s ∈ calculateStartValues pages, fetchSinglePage (net s) = .ok (page s)) →
      1 ≤ pages →
      calculateStartValues pages
          = ((List.range (min pages MAX_PAGES)).map fun i => 1 + i * DISPLAY_PER_PAGE)
      ∧ fetchAllPages net pages
          = .ok { items := ((calculateStartValues pages).map fun s => (page s).items).flatten
                  total := ((calculateStartValues pages).map fun s => (page s).total).getLastD 0 }
      ∧ ∃ lastStart, (calculateStartValues pages).getLast? = some lastStart
          ∧ ((calculateStartValues pages).map fun s => (page s).total).getLastD 0
              = (page lastStart).total := by
  intro net page pages hok hp
  have hcsv : calculateStartValues pages
      = ((List.range (min pages MAX_PAGES)).map fun i => 1 + i * DISPLAY_PER_PAGE) := by
    unfold calculateStartValues
    refine List.takeWhile_eq_self_iff.mpr ?_
    intro x hx
    rcases List.mem_map.mp hx with ⟨i, hi, hix⟩
    have hi10 : i < MAX_PAGES := lt_of_lt_of_le (List.mem_range.mp hi) (min_le_right _ _)
    have : x ≤ MAX_START_VALUE := by
      subst hix
      simp only [MAX_PAGES, DISPLAY_PER_PAGE, MAX_START_VALUE] at hi10 ⊢
      omega
    simpa using this
  refine ⟨hcsv, ?_, ?_⟩
  · unfold fetchAllPages
    rw [fetchPagesLoop_ok net page _ [] 0 hok]
    simp
  · have hne : calculateStartValues pages ≠ [] := by
      rw [hcsv]
      have h1 : 1 ≤ min pages MAX_PAGES := le_min hp (by simp [MAX_PAGES])
      intro hempty
      have := congrArg List.length hempty
      simp at this
      omega
    cases hlast : (calculateStartValues pages).getLast? with
    | none => exact absurd (List.getLast?_eq_none_iff.mp hlast) hne
    | some lastStart =>
      refine ⟨lastStart, rfl, ?_⟩
      rw [List.getLastD_eq_getLast?, List.getLast?_map, hlast]
      rfl

deriving instance DecidableEq for Except

/-- Concrete first-page raw item for the C6 witness. -/
def rawItemA : NaverShopRawItem :=
  { title := "A", link := "https://example.com/a", image := "", lprice := "100", hprice := "",
    mallName := "", productId := "", productType := "", brand := "", maker := "",
    category1 := "", category2 := "", category3 := "", category4 := "" }

/-- Concrete second-page raw item for the C6 witness. -/
def rawItemB : NaverShopRawItem :=
  { rawItemA with title := "B", link := "https://example.com/b" }

/-- Concrete per-offset page contents for the C6 witness: offset 1 delivers
`rawItemA` with total 5, offset 101 delivers `rawItemB` with total 7. -/
def wPage : Nat → FetchedPage := fun start =>
  if start = 1 then { items := [rawItemA], total := 5 } else { items := [rawItemB], total := 7 }

/-- Concrete network oracle for the C6 witness: every offset answers with a
schema-valid body holding that offset's page. -/
def wNet : Nat → NetResult := fun start =>
  .response 200 "OK" true ""
    (some { itemsField := some (wPage start).items, totalField := some (wPage start).total,
            schemaValid := true })

/-- Witness for C6: a successful two-page fetch concatenates both pages in
order and reports the second page's total, 7. -/
theorem fetchAllPages_concat_and_last_total_witness :
    (∀ s ∈ calculateStartValues 2, fetchSinglePage (wNet s) = .ok (wPage s))
    ∧ 1 ≤ 2
    ∧ (calculateStartValues 2
          = ((List.range (min 2 MAX_PAGES)).map fun i => 1 + i * DISPLAY_PER_PAGE)
      ∧ fetchAllPages wNet 2
          = .ok { items := ((calculateStartValues 2).map fun s => (wPage s).items).flatten
                  total := ((calculateStartValues 2).map fun s => (wPage s).total).getLastD 0 }
      ∧ ∃ lastStart, (calculateStartValues 2).getLast? = some lastStart
          ∧ ((calculateStartValues 2).map fun s => (wPage s).total).getLastD 0
              = (wPage lastStart).total) :=
  ⟨by decide, by decide,
   fetchAllPages_concat_and_last_total wNet wPage 2 (by decide) (by decide)⟩

/-! ## C9 — twelve identically priced items form a single band -/

/-- Folding items of one common price into a single-entry group map appends
them to that entry while the per-group cap is not reached. -/
theorem foldl_insert_const (p : Int) : ∀ (l : List Item) (cur : List Item),
    (∀ i ∈ l, i.lprice = p) → cur.length + l.length ≤ MAX_ITEMS_PER_GROUP →
    List.foldl insertItemIntoGroups [(p, cur)] l = [(p, cur ++ l)] := by
  intro l
  induction l with
  | nil => intro cur _ _; simp
  | cons a t ih =>
    intro cur hall hlen
    have hap : a.lprice = p := hall a (List.mem_cons_self _ _)
    have hcur : cur.length < MAX_ITEMS_PER_GROUP := by
      simp only [List.length_cons] at hlen
      omega
    have hins : insertItemIntoGroups [(p, cur)] a = [(p, cur ++ [a])] := by
      simp [insertItemIntoGroups, hap, hcur]
    simp only [List.length_cons] at hlen
    simp only [List.foldl_cons, hins]
    rw [ih (cur ++ [a]) (fun i hi => hall i (List.mem_cons_of_mem _ hi))
      (by simp only [List.length_append, List.length_singleton]; omega)]
    simp

/-- C9: for any list of exactly 12 items all priced 9900, `groupByPrice`
returns exactly one group — price 9900, count 12, holding all the items in
order — and the price-band summary over it has average and median both
9900. -/
theorem twelve_equal_priced_items_single_band :
    ∀ (items : List Item), items.length = 12 → (∀ i ∈ items, i.lprice = 9900) →
      groupByPrice items TOP_N
          = [{ price := 9900, count := 12, items := items,
               representative := items.headD default }]
      ∧ calculatePriceBand (groupByPrice items TOP_N)
          = some { minPrice := 9900, maxPrice := 9900, avgPrice := 9900,
                   medianPrice := 9900 } := by
  intro items hlen hall
  obtain ⟨a, t, rfl⟩ : ∃ a t, items = a :: t := by
    cases items with
    | nil => simp at hlen
    | cons a t => exact ⟨a, t, rfl⟩
  have hfold : (a :: t).foldl insertItemIntoGroups [] = [(9900, a :: t)] := by
    have h1 : insertItemIntoGroups [] a = [((9900 : Int), [a])] := by
      simp [insertItemIntoGroups, hall a (List.mem_cons_self _ _)]
    simp only [List.foldl_cons, h1]
    rw [foldl_insert_const 9900 t [a] (fun i hi => hall i (List.mem_cons_of_mem _ hi))
      (by simp only [List.length_cons] at hlen; simp [MAX_ITEMS_PER_GROUP]; omega)]
    simp
  have hgrp : groupByPrice (a :: t) TOP_N
      = [{ price := 9900, count := 12, items := a :: t,
           representative := (a :: t).headD default }] := by
    unfold groupByPrice
    rw [if_neg (by simp)]
    rw [hfold]
    simp [TOP_N, hlen]
  refine ⟨hgrp, ?_⟩
  rw [hgrp]
  simp only [calculatePriceBand]
  norm_num [listMin, listMax]
  decide

/-- Concrete item priced 9900 for the C9 witness. -/
def item9900 : Item :=
  { sampleItem with lprice := 9900, link := "https://example.com/9900" }

/-- Witness for C9: twelve copies of a concrete 9900-priced item. -/
theorem twelve_equal_priced_items_single_band_witness :
    (List.replicate 12 item9900).length = 12
    ∧ (∀ i ∈ List.replicate 12 item9900, i.lprice = 9900)
    ∧ (groupByPrice (List.replicate 12 item9900) TOP_N
          = [{ price := 9900, count := 12, items := List.replicate 12 item9900,
               representative := (List.replicate 12 item9900).headD default }]
      ∧ calculatePriceBand (groupByPrice (List.replicate 12 item9900) TOP_N)
          = some { minPrice := 9900, maxPrice := 9900, avgPrice := 9900,
                   medianPrice := 9900 }) :=
  ⟨by decide, by decide,
   twelve_equal_priced_items_single_band (List.replicate 12 item9900) (by decide) (by decide)⟩

/-! ## C10 — structural invariants of `groupByPrice` -/

/-- Invariant satisfied by every entry of the price-keyed group map. -/
def entryInv (e : Int × List Item) : Prop :=
  e.2 ≠ [] ∧ e.2.length ≤ MAX_ITEMS_PER_GROUP ∧ ∀ i ∈ e.2, i.lprice = e.1

/-- A key of the updated group map is an old key or the inserted item's
price. -/
theorem keys_insertItemIntoGroups : ∀ (m : List (Int × List Item)) (item : Item) (x : Int),
    x ∈ (insertItemIntoGroups m item).map Prod.fst →
    x ∈ m.map Prod.fst ∨ x = item.lprice := by
  intro m item
  induction m with
  | nil =>
    intro x hx
    simp [insertItemIntoGroups] at hx
    exact Or.inr hx
  | cons e rest ih =>
    obtain ⟨k, v⟩ := e
    intro x hx
    by_cases hk : k = item.lprice
    · simp only [insertItemIntoGroups, hk, if_true] at hx
      rcases List.mem_map.mp hx with ⟨f, hf, hfx⟩
      rcases List.mem_cons.mp hf with hf | hf
      · subst hf
        split at hfx <;> simp_all
      · exact Or.inl (by simp only [List.map_cons, List.mem_cons]; exact Or.inr (hfx ▸ List.mem_map_of_mem _ hf))
    · simp only [insertItemIntoGroups, hk, if_false] at hx
      simp only [List.map_cons, List.mem_cons] at hx ⊢
      rcases hx with hx | hx
      · exact Or.inl (Or.inl hx)
      · rcases ih x hx with h | h
        · exact Or.inl (Or.inr h)
        · exact Or.inr h

/-- Inserting an item preserves the entry invariant and key distinctness of
the group map. -/
theorem insertItemIntoGroups_inv : ∀ (m : List (Int × List Item)) (item : Item),
    (∀ e ∈ m, entryInv e) → (m.map Prod.fst).Nodup →
    (∀ e ∈ insertItemIntoGroups m item, entryInv e)
    ∧ ((insertItemIntoGroups m item).map Prod.fst).Nodup := by
  intro m item
  induction m with
  | nil =>
    intro _ _
    constructor
    · intro e he
      simp only [insertItemIntoGroups, List.mem_singleton] at he
      subst he
      refine ⟨by simp, by simp [MAX_ITEMS_PER_GROUP], by simp⟩
    · simp [insertItemIntoGroups]
  | cons e rest ih =>
    obtain ⟨k, v⟩ := e
    intro hinv hnd
    have hinvh : entryInv (k, v) := hinv _ (List.mem_cons_self _ _)
    have hinvt : ∀ f ∈ rest, entryInv f := fun f hf => hinv f (List.mem_cons_of_mem _ hf)
    simp only [List.map_cons, List.nodup_cons] at hnd
    by_cases hk : k = item.lprice
    · subst hk
      have hins : insertItemIntoGroups ((item.lprice, v) :: rest) item
          = (if v.length < MAX_ITEMS_PER_GROUP then (item.lprice, v ++ [item])
             else (item.lprice, v)) :: rest := by
        simp [insertItemIntoGroups]
      have hheadInv : entryInv (if v.length < MAX_ITEMS_PER_GROUP then (item.lprice, v ++ [item])
          else (item.lprice, v)) := by
        by_cases hv : v.length < MAX_ITEMS_PER_GROUP
        · rw [if_pos hv]
          refine ⟨by simp, ?_, ?_⟩
          · simp only [List.length_append, List.length_singleton]
            omega
          · intro i hi
            rcases List.mem_append.mp hi with hi | hi
            · exact hinvh.2.2 i hi
            · simp only [List.mem_singleton] at hi
              subst hi
              rfl
        · rw [if_neg hv]
          exact hinvh
      have hheadFst : (if v.length < MAX_ITEMS_PER_GROUP then (item.lprice, v ++ [item])
          else (item.lprice, v)).1 = item.lprice := by
        split <;> rfl
      rw [hins]
      constructor
      · intro f hf
        rcases List.mem_cons.mp hf with hf | hf
        · exact hf ▸ hheadInv
        · exact hinvt f hf
      · simp only [List.map_cons, hheadFst]
        exact List.nodup_cons.mpr ⟨hnd.1, hnd.2⟩
    · have iht := ih hinvt hnd.2
      constructor
      · intro f hf
        simp only [insertItemIntoGroups, hk, if_false, List.mem_cons] at hf
        rcases hf with hf | hf
        · exact hf ▸ hinvh
        · exact iht.1 f hf
      · simp only [insertItemIntoGroups, hk, if_false, List.map_cons]
        refine List.nodup_cons.mpr ⟨?_, iht.2⟩
        intro hmem
        rcases keys_insertItemIntoGroups rest item k hmem with h | h
        · exact hnd.1 h
        · exact hk h

/-- The whole grouping fold preserves the entry invariant and key
distinctness. -/
theorem foldl_insertItemIntoGroups_inv : ∀ (l : List Item) (m : List (Int × List Item)),
    (∀ e ∈ m, entryInv e) → (m.map Prod.fst).Nodup →
    (∀ e ∈ l.foldl insertItemIntoGroups m, entryInv e)
    ∧ ((l.foldl insertItemIntoGroups m).map Prod.fst).Nodup := by
  intro l
  induction l with
  | nil => intro m h1 h2; exact ⟨h1, h2⟩
  | cons a t ih =>
    intro m h1 h2
    have := insertItemIntoGroups_inv m a h1 h2
    simpa [List.foldl_cons] using ih (insertItemIntoGroups m a) this.1 this.2

/-- C10: every group produced by `groupByPrice` has `count` equal to its item
list length, between 1 and the per-group cap 20, items all at the group's
price, a non-empty item list whose head is the representative; and the group
list is strictly increasing in price with at most `maxGroups` entries. -/
theorem groupByPrice_invariants :
    ∀ (items : List Item) (maxGroups : Nat),
      (groupByPrice items maxGroups).length ≤ maxGroups
      ∧ (groupByPrice items maxGroups).Pairwise (fun a b => a.price < b.price)
      ∧ ∀ g ∈ groupByPrice items maxGroups,
          g.count = g.items.length ∧ 1 ≤ g.count ∧ g.count ≤ MAX_ITEMS_PER_GROUP
          ∧ (∀ i ∈ g.items, i.lprice = g.price)
          ∧ g.items ≠ [] ∧ g.representative = g.items.headD default := by
  intro items maxGroups
  by_cases h0 : items.length = 0
  · simp [groupByPrice, h0]
  · have hfold := foldl_insertItemIntoGroups_inv items [] (by simp) (by simp)
    set groupMap := items.foldl insertItemIntoGroups [] with hgm
    set sorted := groupMap.mergeSort (fun a b => decide (a.1 ≤ b.1)) with hs
    have hgdef : groupByPrice items maxGroups
        = (sorted.take maxGroups).map fun e =>
            { price := e.1, count := e.2.length, items := e.2,
              representative := e.2.headD default } := by
      simp [groupByPrice, h0, hgm, hs]
    have hsortmem : ∀ e ∈ sorted, entryInv e := by
      intro e he
      exact hfold.1 e (List.mem_mergeSort.mp he)
    have hsorted : sorted.Pairwise fun a b => (decide (a.1 ≤ b.1) : Bool) := by
      refine List.sorted_mergeSort ?_ ?_ groupMap
      · intro a b c hab hbc
        simp only [decide_eq_true_eq] at hab hbc ⊢
        omega
      · intro a b
        simp only [Bool.or_eq_true, decide_eq_true_eq]
        omega
    have hkeysnd : (sorted.map Prod.fst).Nodup := by
      have hperm : List.Perm sorted groupMap := List.mergeSort_perm _ _
      exact ((hperm.map _).nodup_iff).mpr hfold.2
    have hne : sorted.Pairwise fun a b => a.1 ≠ b.1 := by
      have := List.pairwise_map.mp hkeysnd
      exact this
    have hlt : sorted.Pairwise fun a b => a.1 < b.1 := by
      have hand := hsorted.and hne
      refine hand.imp ?_
      intro a b hab
      have h1 : a.1 ≤ b.1 := by
        have := hab.1
        simpa using this
      exact lt_of_le_of_ne h1 hab.2
    refine ⟨?_, ?_, ?_⟩
    · rw [hgdef]
      simp [List.length_take]
    · rw [hgdef]
      refine List.pairwise_map.mpr ?_
      exact hlt.sublist (List.take_sublist _ _)
    · intro g hg
      rw [hgdef] at hg
      rcases List.mem_map.mp hg with ⟨e, he, hge⟩
      have hinv : entryInv e := hsortmem e (List.mem_of_mem_take he)
      subst hge
      exact ⟨rfl, List.length_pos.mpr hinv.1, hinv.2.1, hinv.2.2, hinv.1, rfl⟩

/-- Witness for C10: the single group produced for two concrete items. -/
theorem groupByPrice_invariants_witness :
    { price := 1000, count := 2, items := [sampleItem, { sampleItem with title := "상품 B" }],
      representative := sampleItem : PriceGroup }
        ∈ groupByPrice [sampleItem, { sampleItem with title := "상품 B" }] 10
    ∧ ({ price := 1000, count := 2,
         items := [sampleItem, { sampleItem with title := "상품 B" }],
         representative := sampleItem : PriceGroup }.count
        = [sampleItem, { sampleItem with title := "상품 B" }].length
      ∧ 1 ≤ (2 : Nat) ∧ (2 : Nat) ≤ MAX_ITEMS_PER_GROUP
      ∧ (∀ i ∈ [sampleItem, { sampleItem with title := "상품 B" }], i.lprice = 1000)
      ∧ [sampleItem, { sampleItem with title := "상품 B" }] ≠ ([] : List Item)
      ∧ sampleItem = [sampleItem, { sampleItem with title := "상품 B" }].headD default) := by
  have h := (groupByPrice_invariants [sampleItem, { sampleItem with title := "상품 B" }] 10).2.2
    { price := 1000, count := 2, items := [sampleItem, { sampleItem with title := "상품 B" }],
      representative := sampleItem } (by decide)
  exact ⟨by decide, h.1, h.2.1, h.2.2.1, h.2.2.2.1, h.2.2.2.2.1, h.2.2.2.2.2⟩

/-! ## C2 — relaxation firing order and the returned log -/

/-- With the noise filter off, the domain pipeline neither relaxes nor logs
anything. -/
theorem filterAndSortItems_noise_off (raw : List NaverShopRawItem) (f : SearchFilters)
    (h : f.filterNoise = false) :
    (filterAndSortItems raw f).appliedRelaxation = []
    ∧ (filterAndSortItems raw f).appliedFilters.filterNoise = false := by
  constructor <;> simp [filterAndSortItems, h]

/-- When the domain pipeline ends with zero items, the noise filter it
reports is off: either it was off to begin with, or the zero-result relaxation
turned it off. -/
theorem filterAndSortItems_empty_noise (raw : List NaverShopRawItem) (f : SearchFilters)
    (h : (filterAndSortItems raw f).items = []) :
    (filterAndSortItems raw f).appliedFilters.filterNoise = false := by
  by_cases hn : f.filterNoise
  · by_cases h0 : (applyFiltersAndProcess (raw.map transformRawItem) f.minPrice f.maxPrice
        f.exclude f.filterNoise).length = 0
    · rw [hn] at h0
      simp [filterAndSortItems, hn, h0]
    · exfalso
      apply h0
      have hitems : (filterAndSortItems raw f).items
          = applyFiltersAndProcess (raw.map transformRawItem) f.minPrice f.maxPrice
              f.exclude f.filterNoise := by
        simp [filterAndSortItems, h0]
      rw [hitems] at h
      simp [h]
  · simp [filterAndSortItems, hn]

/-- The domain pipeline's relaxation log is empty or the single
`dropFilterNoise` entry. -/
theorem filterAndSortItems_log (raw : List NaverShopRawItem) (f : SearchFilters) :
    (filterAndSortItems raw f).appliedRelaxation = []
    ∨ (filterAndSortItems raw f).appliedRelaxation = [RelaxationStep.dropFilterNoise] := by
  by_cases h0 : (applyFiltersAndProcess (raw.map transformRawItem) f.minPrice f.maxPrice
      f.exclude f.filterNoise).length = 0
  · by_cases hn : f.filterNoise
    · right
      rw [hn] at h0
      simp [filterAndSortItems, h0, hn]
    · left
      simp [filterAndSortItems, h0, hn]
  · left
    simp [filterAndSortItems, h0]

/-- Firing condition of the service-level `dropExclude` round. -/
def dropExcludeFired (fetchAll : Nat → List ExcludeOption → FetchedPage)
    (filters : SearchFilters) : Prop :=
  (relaxInit fetchAll filters).filterResult.items.length = 0
  ∧ excludeActive (relaxInit fetchAll filters).currentExclude = true

instance (fetchAll : Nat → List ExcludeOption → FetchedPage) (filters : SearchFilters) :
    Decidable (dropExcludeFired fetchAll filters) :=
  inferInstanceAs (Decidable (_ ∧ _))

/-- Firing condition of the service-level `reducePages` round. -/
def reducePagesFired (fetchAll : Nat → List ExcludeOption → FetchedPage)
    (filters : SearchFilters) : Prop :=
  (relaxDropExclude fetchAll filters (relaxInit fetchAll filters)).filterResult.items.length = 0
  ∧ 1 < (relaxDropExclude fetchAll filters (relaxInit fetchAll filters)).currentPages

instance (fetchAll : Nat → List ExcludeOption → FetchedPage) (filters : SearchFilters) :
    Decidable (reducePagesFired fetchAll filters) :=
  inferInstanceAs (Decidable (_ ∧ _))

/-- Rendering of the claim's "the returned appliedRelaxation log lists exactly
the steps that fired, in that firing order": `dropFilterNoise` exactly when
the domain round logged it, then `dropExclude` and `reducePages` exactly when
their service rounds fired. -/
def specFiredSteps (fetchAll : Nat → List ExcludeOption → FetchedPage)
    (filters : SearchFilters) : List RelaxationStep :=
  (if (relaxInit fetchAll filters).filterResult.appliedRelaxation = [] then []
   else [RelaxationStep.dropFilterNoise])
  ++ (if dropExcludeFired fetchAll filters then [RelaxationStep.dropExclude] else [])
  ++ (if reducePagesFired fetchAll filters then [RelaxationStep.reducePages] else [])

/-- C2 (amended): the service steps `dropExclude` and `reducePages` appear in
the log exactly when their preconditions fire, in that order; the domain step
`dropFilterNoise` appears only when it fired and *no* service re-fetch round
fired afterwards — a later `dropExclude` or `reducePages` round discards the
earlier `dropFilterNoise` entry, because the merge uses only the terminal
round's domain log.  The domain log itself is always empty or the single
`dropFilterNoise` entry. -/
theorem relaxation_order_and_log :
    ∀ (fetchAll : Nat → List ExcludeOption → FetchedPage) (query : String)
      (filters : SearchFilters),
      ((getLowestPrice fetchAll query filters).appliedRelaxation
        = (if dropExcludeFired fetchAll filters ∨ reducePagesFired fetchAll filters then []
           else (relaxInit fetchAll filters).filterResult.appliedRelaxation)
          ++ (if dropExcludeFired fetchAll filters then [RelaxationStep.dropExclude] else [])
          ++ (if reducePagesFired fetchAll filters then [RelaxationStep.reducePages] else []))
      ∧ ((relaxInit fetchAll filters).filterResult.appliedRelaxation = []
        ∨ (relaxInit fetchAll filters).filterResult.appliedRelaxation
            = [RelaxationStep.dropFilterNoise]) := by
  intro fetchAll query filters
  constructor
  · have hmain : (getLowestPrice fetchAll query filters).appliedRelaxation
        = (relaxReducePages fetchAll filters
            (relaxDropExclude fetchAll filters
              (relaxInit fetchAll filters))).filterResult.appliedRelaxation
          ++ (relaxReducePages fetchAll filters
            (relaxDropExclude fetchAll filters (relaxInit fetchAll filters))).log := rfl
    rw [hmain]
    by_cases h2 : dropExcludeFired fetchAll filters
    · have hnoise : (relaxInit fetchAll filters).filterResult.appliedFilters.filterNoise
          = false :=
        filterAndSortItems_empty_noise _ _ (List.length_eq_zero.mp h2.1)
      have hfr2log : (relaxDropExclude fetchAll filters
          (relaxInit fetchAll filters)).filterResult.appliedRelaxation = [] := by
        unfold relaxDropExclude
        rw [if_pos ⟨h2.1, h2.2⟩]
        exact (filterAndSortItems_noise_off _ _ hnoise).1
      have hs2log : (relaxDropExclude fetchAll filters (relaxInit fetchAll filters)).log
          = [RelaxationStep.dropExclude] := by
        unfold relaxDropExclude
        rw [if_pos ⟨h2.1, h2.2⟩]
        rfl
      by_cases h3 : reducePagesFired fetchAll filters
      · have hfr3log : (relaxReducePages fetchAll filters (relaxDropExclude fetchAll filters
            (relaxInit fetchAll filters))).filterResult.appliedRelaxation = [] := by
          unfold relaxReducePages
          rw [if_pos ⟨h3.1, h3.2⟩]
          exact (filterAndSortItems_noise_off _ _ rfl).1
        have hs3log : (relaxReducePages fetchAll filters (relaxDropExclude fetchAll filters
            (relaxInit fetchAll filters))).log
            = (relaxDropExclude fetchAll filters (relaxInit fetchAll filters)).log
              ++ [RelaxationStep.reducePages] := by
          unfold relaxReducePages
          rw [if_pos ⟨h3.1, h3.2⟩]
        rw [hfr3log, hs3log, hs2log]
        simp [h2, h3]
      · have h3u : ¬ ((relaxDropExclude fetchAll filters
            (relaxInit fetchAll filters)).filterResult.items.length = 0
            ∧ 1 < (relaxDropExclude fetchAll filters
                (relaxInit fetchAll filters)).currentPages) := h3
        have hs3 : relaxReducePages fetchAll filters (relaxDropExclude fetchAll filters
            (relaxInit fetchAll filters))
            = relaxDropExclude fetchAll filters (relaxInit fetchAll filters) := by
          unfold relaxReducePages
          rw [if_neg h3u]
        rw [hs3, hfr2log, hs2log]
        simp [h2, h3]
    · have h2u : ¬ ((relaxInit fetchAll filters).filterResult.items.length = 0
          ∧ excludeActive (relaxInit fetchAll filters).currentExclude = true) := h2
      have hs2 : relaxDropExclude fetchAll filters (relaxInit fetchAll filters)
          = relaxInit fetchAll filters := by
        unfold relaxDropExclude
        rw [if_neg h2u]
      by_cases h3 : reducePagesFired fetchAll filters
      · have h3s1 : (relaxInit fetchAll filters).filterResult.items.length = 0
            ∧ 1 < (relaxInit fetchAll filters).currentPages := by
          have := h3
          rw [reducePagesFired, hs2] at this
          exact this
        have hfr3log : (relaxReducePages fetchAll filters
            (relaxInit fetchAll filters)).filterResult.appliedRelaxation = [] := by
          unfold relaxReducePages
          rw [if_pos ⟨h3s1.1, h3s1.2⟩]
          exact (filterAndSortItems_noise_off _ _ rfl).1
        have hs3log : (relaxReducePages fetchAll filters (relaxInit fetchAll filters)).log
            = (relaxInit fetchAll filters).log ++ [RelaxationStep.reducePages] := by
          unfold relaxReducePages
          rw [if_pos ⟨h3s1.1, h3s1.2⟩]
        rw [hs2, hfr3log, hs3log]
        simp [h2, h3]
        rfl
      · have h3s1 : ¬ ((relaxInit fetchAll filters).filterResult.items.length = 0
            ∧ 1 < (relaxInit fetchAll filters).currentPages) := by
          intro hcon
          apply h3
          rw [reducePagesFired, hs2]
          exact hcon
        have hs3 : relaxReducePages fetchAll filters (relaxInit fetchAll filters)
            = relaxInit fetchAll filters := by
          unfold relaxReducePages
          rw [if_neg h3s1]
        rw [hs2, hs3]
        simp [h2, h3]
        rfl
  · exact filterAndSortItems_log _ _

/-- Raw item carrying both a noise keyword and a "used" exclusion keyword. -/
def cRawDirty : NaverShopRawItem :=
  { title := "중고 견적 상품", link := "https://example.com/d", image := "", lprice := "1000",
    hprice := "", mallName := "", productId := "", productType := "", brand := "", maker := "",
    category1 := "", category2 := "", category3 := "", category4 := "" }

/-- Raw item with a clean title. -/
def cRawClean : NaverShopRawItem :=
  { cRawDirty with title := "일반 상품", link := "https://example.com/c" }

/-- Oracle for the C2 counterexample: with an exclude parameter the upstream
returns only the dirty item, without it only the clean one. -/
def cFetchAll : Nat → List ExcludeOption → FetchedPage := fun _ exclude =>
  if exclude.isEmpty then { items := [cRawClean], total := 1 }
  else { items := [cRawDirty], total := 1 }

/-- Filters for the C2 counterexample: noise filtering on, `used` excluded,
one page. -/
def cFilters : SearchFilters :=
  { minPrice := none, maxPrice := none, sort := .sim, exclude := some [.used], pages := 1,
    filterNoise := true }

/-- Counterexample to C2 as stated: on this search both `dropFilterNoise` and
`dropExclude` fire, but the returned log is only `[dropExclude]` — the
`dropFilterNoise` entry is lost when the later re-fetch round replaces the
domain result whose log held it. -/
theorem relaxation_log_counterexample :
    (getLowestPrice cFetchAll "검색어" cFilters).appliedRelaxation
        = [RelaxationStep.dropExclude]
    ∧ specFiredSteps cFetchAll cFilters
        = [RelaxationStep.dropFilterNoise, RelaxationStep.dropExclude]
    ∧ (getLowestPrice cFetchAll "검색어" cFilters).appliedRelaxation
        ≠ specFiredSteps cFetchAll cFilters := by
  refine ⟨by decide, by decide, by decide⟩

end Salermoon
